import Mathlib

/-!
Verification of the bayesevolve numerical core.

Shallow embedding, over the reals, of the numerical algorithm core of the
bayesevolve repository: the density utilities (`src/unnamed/part_007`,
`services/mathUtils`), the HMC leapfrog integrator
(`src/components/ModuleHMC.tsx`), the Metropolis-Hastings sampler
(`src/unnamed/part_002`, `ModuleMetropolis`), the Gibbs sampler
(`src/unnamed/part_003`) and the Normal-Normal conjugate updater
(`src/unnamed/part_001`, `ModuleAnalytical`).

JavaScript `number` arithmetic is modelled by real arithmetic; `Math.random()`
draws become explicit real parameters; per-component React state becomes
explicit state records threaded through step functions.
-/

namespace BayesEvolve

noncomputable section

open Real

/-- A 2D point `{x, y}` as used for positions, proposals and momenta. -/
structure Point where
  x : ℝ
  y : ℝ

/-! Section: density / utility library (`src/unnamed/part_007`). -/

/-- The main (non-reflection) branch of `logGamma`: the Lanczos
approximation with the 8 coefficients of the source, after `z -= 1`. -/
def logGammaMain (z : ℝ) : ℝ :=
  let w := z - 1
  let x : ℝ := 0.99999999999980993
      + 676.5203681218851 / (w + 1)
      + (-1259.1392167224028) / (w + 2)
      + 771.32342877765313 / (w + 3)
      + (-176.61502916214059) / (w + 4)
      + 12.507343278686905 / (w + 5)
      + (-0.13857109526572012) / (w + 6)
      + 9.9843695780195716e-6 / (w + 7)
      + 1.5056327351493116e-7 / (w + 8)
  let t := w + 8 - 0.5
  Real.log (2 * π) / 2 + (w + 0.5) * Real.log t - t + Real.log x

/-- Function `logGamma` from the source.  For `z < 0.5` the source applies the
reflection formula and recurses on `1 - z`; since then `1 - z > 0.5`, that
recursive call lands in the main Lanczos branch, so the one-level unfolding
below is exact. -/
def logGamma (z : ℝ) : ℝ :=
  if z < 0.5 then Real.log π - Real.log (Real.sin (π * z)) - logGammaMain (1 - z)
  else logGammaMain z

/-- Function `betaPdf(x, alpha, beta)`: 0 outside `[0,1]`, otherwise computed in
log-space and exponentiated. -/
def betaPdf (x alpha beta : ℝ) : ℝ :=
  if x < 0 ∨ x > 1 then 0
  else
    let logBetaFunc := logGamma alpha + logGamma beta - logGamma (alpha + beta)
    let logPdf := (alpha - 1) * Real.log x + (beta - 1) * Real.log (1 - x) - logBetaFunc
    Real.exp logPdf

/-- Function `bivariateNormalPdf(x, y, ux, uy, sx, sy, rho)`. -/
def bivariateNormalPdf (x y ux uy sx sy rho : ℝ) : ℝ :=
  let z := (x - ux) ^ 2 / sx ^ 2
         - 2 * rho * (x - ux) * (y - uy) / (sx * sy)
         + (y - uy) ^ 2 / sy ^ 2
  let normFactor := 1 / (2 * π * sx * sy * Real.sqrt (1 - rho ^ 2))
  normFactor * Real.exp (-z / (2 * (1 - rho ^ 2)))

/-- Function `targetMapPdf(x, y)`: the fixed mixture-of-Gaussians target of the
Metropolis module. -/
def targetMapPdf (x y : ℝ) : ℝ :=
  let p1 := bivariateNormalPdf x y 3 3 1.5 1.5 0
  let p2 := bivariateNormalPdf x y 7 7 1.0 1.0 0
  p1 + 0.5 * p2

/-- Function `donutPotential(x, y) = 0.5 * (r - 5)^2` with `r = sqrt(x*x + y*y)`. -/
def donutPotential (x y : ℝ) : ℝ :=
  let r := Real.sqrt (x * x + y * y)
  let targetR : ℝ := 5
  0.5 * (r - targetR) ^ 2

/-- Function `donutGradient(x, y)`: `(0,0)` at the origin, otherwise
`(r-5) * (x/r, y/r)`. -/
def donutGradient (x y : ℝ) : ℝ × ℝ :=
  let r := Real.sqrt (x * x + y * y)
  let targetR : ℝ := 5
  if r = 0 then (0, 0)
  else
    let dUdr := r - targetR
    (dUdr * (x / r), dUdr * (y / r))

/-! Section: HMC integrator (`src/components/ModuleHMC.tsx`). -/

/-- Function `potentialEnergy(x, y)` of `ModuleHMC.tsx`: `(r - R)^2` with `R = 5`
(note: no `0.5` factor, unlike `donutPotential`). -/
def potentialEnergy (x y : ℝ) : ℝ :=
  let R : ℝ := 5
  let r := Real.sqrt (x * x + y * y)
  (r - R) ^ 2

/-- Function `kineticEnergy(px, py, m) = (px² + py²) / (2m)`. -/
def kineticEnergy (px py m : ℝ) : ℝ :=
  (px * px + py * py) / (2 * m)

/-- The module-level constant `mass = 1.0`. -/
def mass : ℝ := 1.0

/-- Particle state of the HMC module: position, momentum, trajectory path. -/
structure Particle where
  q : Point
  p : Point
  path : List Point

/-- One `{U, K, H}` entry of the energy history. -/
structure EnergyTriple where
  U : ℝ
  K : ℝ
  H : ℝ

/-- JavaScript `list.slice(-n)`: the last `n` elements (the whole list when
it is shorter than `n`). -/
def sliceLast (n : ℕ) (l : List α) : List α :=
  l.drop (l.length - n)

/-- Function `stepPhysics` of `ModuleHMC.tsx`: one leapfrog step at step size `dt`,
together with the energy-history update
`hist => [...hist.slice(-100), {U, K, H}]`. -/
def stepPhysics (prev : Particle) (dt : ℝ) (hist : List EnergyTriple) :
    Particle × List EnergyTriple :=
  let grad1 := donutGradient prev.q.x prev.q.y
  let px := prev.p.x - (dt / 2) * grad1.1
  let py := prev.p.y - (dt / 2) * grad1.2
  let qx := prev.q.x + dt * (px / mass)
  let qy := prev.q.y + dt * (py / mass)
  let grad2 := donutGradient qx qy
  let px2 := px - (dt / 2) * grad2.1
  let py2 := py - (dt / 2) * grad2.2
  let U := potentialEnergy qx qy
  let K := kineticEnergy px2 py2 mass
  let H := U + K
  (⟨⟨qx, qy⟩, ⟨px2, py2⟩, prev.path ++ [⟨qx, qy⟩]⟩,
   sliceLast 100 hist ++ [⟨U, K, H⟩])

/-! Section: Metropolis-Hastings sampler (`src/unnamed/part_002`, `ModuleMetropolis`). -/

namespace Metropolis

/-- Canvas width of the Metropolis module (pixels). -/
def WIDTH : ℝ := 700

/-- Canvas height of the Metropolis module (pixels). -/
def HEIGHT : ℝ := 700

/-- Pixels per unit. -/
def SCALE : ℝ := 70

/-- The React state of the Metropolis module that the step functions touch:
current position, visited-point history, accepted and total counters. -/
structure MHState where
  position : Point
  history : List Point
  acceptedCount : ℕ
  totalCount : ℕ

/-- Record `lastDecision`: the `{accepted, ratio, roll}` record of a manual decide. -/
structure Decision where
  accepted : Bool
  ratio : ℝ
  roll : ℝ

/-- The auto-run `step` of the Metropolis module, parametrized by the target
density `f` (the source calls `targetMapPdf`) and the three `Math.random()`
draws `r1`, `r2` (proposal) and `u` (accept roll).  Out-of-bounds proposals
only increment the total counter. -/
def step (f : ℝ → ℝ → ℝ) (s : MHState) (sigma r1 r2 u : ℝ) : MHState :=
  let pos := s.position
  let currentPdf := f pos.x pos.y
  let propX := pos.x + (r1 - 0.5) * 2 * sigma
  let propY := pos.y + (r2 - 0.5) * 2 * sigma
  if propX < 0 ∨ propX > WIDTH / SCALE ∨ propY < 0 ∨ propY > HEIGHT / SCALE then
    { s with totalCount := s.totalCount + 1 }
  else
    let propPdf := f propX propY
    let acceptanceRatio := propPdf / currentPdf
    if u < acceptanceRatio then
      let newPos : Point := ⟨propX, propY⟩
      { position := newPos
        history := sliceLast 200 s.history ++ [newPos]
        acceptedCount := s.acceptedCount + 1
        totalCount := s.totalCount + 1 }
    else
      { s with
        history := sliceLast 200 s.history ++ [pos]
        totalCount := s.totalCount + 1 }

/-- Function `handleManualPropose`: the proposal point built from the current
position, the proposal width and the two `Math.random()` draws.  (The
source's early return when a proposal is already pending is UI state and is
not modelled.) -/
def handleManualPropose (position : Point) (sigma r1 r2 : ℝ) : Point :=
  ⟨position.x + (r1 - 0.5) * 2 * sigma, position.y + (r2 - 0.5) * 2 * sigma⟩

/-- Function `handleManualDecide`, parametrized by the target density `f` and the
uniform roll: returns the updated module state and the
`{accepted, ratio, roll}` decision record. -/
def handleManualDecide (f : ℝ → ℝ → ℝ) (s : MHState) (proposal : Point)
    (roll : ℝ) : MHState × Decision :=
  let currentPdf := f s.position.x s.position.y
  let propPdf := f proposal.x proposal.y
  let ratio := propPdf / currentPdf
  let accepted : Bool := if roll < min 1 ratio then true else false
  if accepted then
    ({ position := proposal
       history := s.history ++ [proposal]
       acceptedCount := s.acceptedCount + 1
       totalCount := s.totalCount + 1 },
     ⟨accepted, ratio, roll⟩)
  else
    ({ s with
       history := s.history ++ [s.position]
       totalCount := s.totalCount + 1 },
     ⟨accepted, ratio, roll⟩)

end Metropolis

/-! Section: Gibbs sampler (`src/unnamed/part_003`). -/

namespace Gibbs

/-- Whose turn it is: sample X given Y, or Y given X. -/
inductive Turn where
  | X : Turn
  | Y : Turn
deriving DecidableEq

/-- The React state of the Gibbs module that `step` touches. -/
structure GibbsState where
  position : Point
  turn : Turn
  history : List Point

/-- The Gibbs `step`, parametrized by the correlation `rho` and the two
`Math.random()` draws `u1`, `u2` of the Box-Muller transform.  The pre-step
position is appended to the history. -/
def step (s : GibbsState) (rho u1 u2 : ℝ) : GibbsState :=
  let sd := Real.sqrt (1 - rho * rho)
  let z := Real.sqrt (-2.0 * Real.log u1) * Real.cos (2.0 * π * u2)
  match s.turn with
  | Turn.X =>
      let mean := rho * s.position.y
      { position := ⟨mean + z * sd, s.position.y⟩
        turn := Turn.Y
        history := s.history ++ [s.position] }
  | Turn.Y =>
      let mean := rho * s.position.x
      { position := ⟨s.position.x, mean + z * sd⟩
        turn := Turn.X
        history := s.history ++ [s.position] }

end Gibbs

/-! Section: conjugate updater (`src/unnamed/part_001`, `ModuleAnalytical`). -/

/-- Embedding of the `NORMAL_NORMAL` branch of the `data` memo in `ModuleAnalytical`
(likelihood sigma fixed at 5): returns `(postMean, postStd)` from the prior
parameters and the sensor-data list; with no data the prior is returned
unchanged. -/
def normalNormalPosterior (priorMean priorStd : ℝ) (sensorData : List ℝ) :
    ℝ × ℝ :=
  let likelihoodSigma : ℝ := 5
  let n : ℕ := sensorData.length
  if 0 < n then
    let dataMean := sensorData.sum / (n : ℝ)
    let priorPrec := 1 / priorStd ^ 2
    let dataPrec := (n : ℝ) / likelihoodSigma ^ 2
    let postPrec := priorPrec + dataPrec
    let postVar := 1 / postPrec
    let postStd := Real.sqrt postVar
    let postMean := postVar * (priorPrec * priorMean + dataPrec * dataMean)
    (postMean, postStd)
  else
    (priorMean, priorStd)

/-! Section: spec-side formulations, for refinement comparisons.

These two definitions follow the specification's words, not the source, and
exist only to be compared with the source-derived definitions above. -/

/-- The donut gradient as the specification writes it:
`∇U(q) = (‖q‖ − 5) · q / ‖q‖`, defined as `(0,0)` at the origin. -/
def donutGradientSpec (q : Point) : Point :=
  let nq := Real.sqrt (q.x ^ 2 + q.y ^ 2)
  if nq = 0 then ⟨0, 0⟩
  else ⟨(nq - 5) * q.x / nq, (nq - 5) * q.y / nq⟩

/-- One leapfrog step as the specification writes it:
`p′ = p − (dt/2)·∇U(q)`, `q′ = q + dt·(p′/m)`, `p″ = p′ − (dt/2)·∇U(q′)`,
returning `(q′, p″)`. -/
def leapfrogSpec (q p : Point) (dt m : ℝ) : Point × Point :=
  let p1 : Point := ⟨p.x - (dt / 2) * (donutGradientSpec q).x,
                     p.y - (dt / 2) * (donutGradientSpec q).y⟩
  let q1 : Point := ⟨q.x + dt * (p1.x / m), q.y + dt * (p1.y / m)⟩
  let p2 : Point := ⟨p1.x - (dt / 2) * (donutGradientSpec q1).x,
                     p1.y - (dt / 2) * (donutGradientSpec q1).y⟩
  (q1, p2)

/-! Section: helper lemmas. -/

theorem bivariateNormalPdf_pos (x y ux uy sx sy rho : ℝ) (hsx : 0 < sx)
    (hsy : 0 < sy) (hrho : rho ^ 2 < 1) :
    0 < bivariateNormalPdf x y ux uy sx sy rho := by
  unfold bivariateNormalPdf
  dsimp only
  have h1 : (0 : ℝ) < Real.sqrt (1 - rho ^ 2) := Real.sqrt_pos.mpr (by linarith)
  have hpi := Real.pi_pos
  have hden : (0 : ℝ) < 2 * π * sx * sy * Real.sqrt (1 - rho ^ 2) := by positivity
  exact mul_pos (by positivity) (Real.exp_pos _)

theorem targetMapPdf_pos (x y : ℝ) : 0 < targetMapPdf x y := by
  unfold targetMapPdf
  dsimp only
  have h1 := bivariateNormalPdf_pos x y 3 3 1.5 1.5 0 (by norm_num) (by norm_num)
    (by norm_num)
  have h2 := bivariateNormalPdf_pos x y 7 7 1.0 1.0 0 (by norm_num) (by norm_num)
    (by norm_num)
  nlinarith

theorem sliceLast_length (n : ℕ) (l : List α) :
    (sliceLast n l).length = min l.length n := by
  simp only [sliceLast, List.length_drop]
  omega

theorem donutGradient_spec (x y : ℝ) :
    donutGradient x y = ((donutGradientSpec ⟨x, y⟩).x, (donutGradientSpec ⟨x, y⟩).y) := by
  have hxy : x * x + y * y = x ^ 2 + y ^ 2 := by ring
  unfold donutGradient donutGradientSpec
  dsimp only
  rw [hxy]
  split
  · rfl
  · simp [mul_div_assoc]

/-! Section: claim theorems. -/

/-- C6: for every `α, β > 0` and every `x ∈ [0,1]`, `betaPdf x α β` is a
nonnegative real number. -/
theorem betaPdf_nonneg (x alpha beta : ℝ) (ha : 0 < alpha) (hb : 0 < beta)
    (hx0 : 0 ≤ x) (hx1 : x ≤ 1) : 0 ≤ betaPdf x alpha beta := by
  unfold betaPdf
  split
  · exact le_rfl
  · dsimp only
    exact (Real.exp_pos _).le

theorem betaPdf_nonneg_witness : 0 ≤ betaPdf 0.5 2 3 :=
  betaPdf_nonneg 0.5 2 3 (by norm_num) (by norm_num) (by norm_num) (by norm_num)

/-- C7: given the two uniform draws `u1`, `u2`, a Gibbs step sets the
coordinate whose turn it is to `ρ·(other coordinate) + z·√(1−ρ²)` with
`z = √(−2 ln u1)·cos(2π u2)`, and leaves the other coordinate unchanged. -/
theorem gibbs_step_conditional (s : Gibbs.GibbsState) (rho u1 u2 : ℝ) :
    (s.turn = Gibbs.Turn.X →
      (Gibbs.step s rho u1 u2).position.x =
        rho * s.position.y +
          (Real.sqrt (-2 * Real.log u1) * Real.cos (2 * π * u2)) *
            Real.sqrt (1 - rho ^ 2) ∧
      (Gibbs.step s rho u1 u2).position.y = s.position.y) ∧
    (s.turn = Gibbs.Turn.Y →
      (Gibbs.step s rho u1 u2).position.y =
        rho * s.position.x +
          (Real.sqrt (-2 * Real.log u1) * Real.cos (2 * π * u2)) *
            Real.sqrt (1 - rho ^ 2) ∧
      (Gibbs.step s rho u1 u2).position.x = s.position.x) := by
  have hsq : 1 - rho * rho = 1 - rho ^ 2 := by ring
  constructor <;> intro h <;>
    simp [Gibbs.step, h, hsq] <;> norm_num

theorem gibbs_step_conditional_witness :
    (Gibbs.step ⟨⟨1, 2⟩, Gibbs.Turn.X, []⟩ 0 1 0).position.x =
      0 * 2 + (Real.sqrt (-2 * Real.log 1) * Real.cos (2 * π * 0)) *
        Real.sqrt (1 - 0 ^ 2) ∧
    (Gibbs.step ⟨⟨1, 2⟩, Gibbs.Turn.X, []⟩ 0 1 0).position.y = 2 :=
  (gibbs_step_conditional ⟨⟨1, 2⟩, Gibbs.Turn.X, []⟩ 0 1 0).1 rfl

/-- C8: when the manual decide rejects, the position and the accepted-count
are unchanged and the current position is still appended to the history;
when it accepts, the position moves to the proposal and the accepted-count
increments by one. -/
theorem mh_decide_frame (f : ℝ → ℝ → ℝ) (s : Metropolis.MHState)
    (proposal : Point) (roll : ℝ) :
    ((Metropolis.handleManualDecide f s proposal roll).2.accepted = false →
      (Metropolis.handleManualDecide f s proposal roll).1.position = s.position ∧
      (Metropolis.handleManualDecide f s proposal roll).1.acceptedCount =
        s.acceptedCount ∧
      (Metropolis.handleManualDecide f s proposal roll).1.history =
        s.history ++ [s.position]) ∧
    ((Metropolis.handleManualDecide f s proposal roll).2.accepted = true →
      (Metropolis.handleManualDecide f s proposal roll).1.position = proposal ∧
      (Metropolis.handleManualDecide f s proposal roll).1.acceptedCount =
        s.acceptedCount + 1 ∧
      (Metropolis.handleManualDecide f s proposal roll).1.history =
        s.history ++ [proposal]) := by
  by_cases h : roll < min 1 (f proposal.x proposal.y / f s.position.x s.position.y)
  · simp [Metropolis.handleManualDecide, h]
  · simp [Metropolis.handleManualDecide, h]

theorem mh_decide_frame_witness :
    (Metropolis.handleManualDecide (fun _ _ => 1) ⟨⟨0, 0⟩, [], 0, 0⟩ ⟨1, 1⟩
        0.5).1.position = ⟨1, 1⟩ ∧
    (Metropolis.handleManualDecide (fun _ _ => 1) ⟨⟨0, 0⟩, [], 0, 0⟩ ⟨1, 1⟩
        0.5).1.acceptedCount = 0 + 1 ∧
    (Metropolis.handleManualDecide (fun _ _ => 1) ⟨⟨0, 0⟩, [], 0, 0⟩ ⟨1, 1⟩
        0.5).1.history = [] ++ [⟨1, 1⟩] :=
  (mh_decide_frame (fun _ _ => 1) ⟨⟨0, 0⟩, [], 0, 0⟩ ⟨1, 1⟩ 0.5).2
    (by simp [Metropolis.handleManualDecide]; norm_num)

/-- C5: the manual decide accepts exactly when the uniform draw satisfies
`u < min(1, π(proposal)/π(current))`; in particular a ratio of at least 1
is accepted for every draw `u < 1`. -/
theorem mh_decide_accept_rule (f : ℝ → ℝ → ℝ) (s : Metropolis.MHState)
    (proposal : Point) (roll : ℝ) :
    ((Metropolis.handleManualDecide f s proposal roll).2.accepted = true ↔
      roll < min 1 (f proposal.x proposal.y / f s.position.x s.position.y)) ∧
    (1 ≤ f proposal.x proposal.y / f s.position.x s.position.y → roll < 1 →
      (Metropolis.handleManualDecide f s proposal roll).2.accepted = true) := by
  constructor
  · by_cases h : roll < min 1 (f proposal.x proposal.y / f s.position.x s.position.y) <;>
      simp [Metropolis.handleManualDecide, h]
  · intro h1 h2
    have hmin : min 1 (f proposal.x proposal.y / f s.position.x s.position.y) = 1 :=
      min_eq_left h1
    simp [Metropolis.handleManualDecide, hmin, h2]

theorem mh_decide_accept_rule_witness :
    (Metropolis.handleManualDecide (fun _ _ => 1) ⟨⟨5, 5⟩, [], 0, 0⟩ ⟨6, 6⟩
        0.999999).2.accepted = true :=
  (mh_decide_accept_rule (fun _ _ => 1) ⟨⟨5, 5⟩, [], 0, 0⟩ ⟨6, 6⟩ 0.999999).2
    (by norm_num) (by norm_num)

/-- C3 (counterexample): a Gibbs step on a state whose history already
holds 200 points returns a history of 201 points — no eviction happens, so
the history is not capped at 200 after every step. -/
theorem gibbs_history_cap_counterexample :
    ¬ ((Gibbs.step ⟨⟨-2, -2⟩, Gibbs.Turn.Y, List.replicate 200 ⟨-2, -2⟩⟩ 0 1
        0).history.length ≤ 200) := by
  have h : (Gibbs.step ⟨⟨-2, -2⟩, Gibbs.Turn.Y, List.replicate 200 ⟨-2, -2⟩⟩ 0 1
      0).history = List.replicate 200 (⟨-2, -2⟩ : Point) ++ [⟨-2, -2⟩] := rfl
  rw [h, List.length_append, List.length_replicate]
  norm_num

/-- C3 (amended): only the auto-run MH step bounds the history — it keeps
the last 200 prior entries before appending, yielding at most 201 points
(or leaves the history untouched on an out-of-bounds proposal); the manual
MH decide and the Gibbs step append one point without any eviction. -/
theorem history_cap_behavior (f : ℝ → ℝ → ℝ) (s : Metropolis.MHState)
    (sigma r1 r2 u : ℝ) (s2 : Metropolis.MHState) (proposal : Point) (roll : ℝ)
    (g : Gibbs.GibbsState) (rho u1 u2 : ℝ) :
    ((Metropolis.step f s sigma r1 r2 u).history = s.history ∨
      (Metropolis.step f s sigma r1 r2 u).history.length =
        min s.history.length 200 + 1) ∧
    (Metropolis.handleManualDecide f s2 proposal roll).1.history.length =
      s2.history.length + 1 ∧
    (Gibbs.step g rho u1 u2).history = g.history ++ [g.position] := by
  refine ⟨?_, ?_, ?_⟩
  · unfold Metropolis.step
    dsimp only
    split
    · exact Or.inl rfl
    · split <;>
        exact Or.inr (by simp [sliceLast_length])
  · unfold Metropolis.handleManualDecide
    dsimp only
    split <;> simp
  · obtain ⟨gp, gt, gh⟩ := g
    cases gt <;> rfl

/-- C2 (counterexample): at `q = (3, 0)` the HMC module's potential-energy
function returns `4`, while the donut potential `½(‖q‖−5)²` is `2` — so
the potential used for the energy history is not `½(‖q‖−5)²`. -/
theorem hmc_potential_counterexample :
    potentialEnergy 3 0 = 4 ∧ donutPotential 3 0 = 2 ∧
      potentialEnergy 3 0 ≠ donutPotential 3 0 := by
  have h9 : Real.sqrt (3 * 3 + 0 * 0) = 3 := by
    rw [show (3 : ℝ) * 3 + 0 * 0 = 3 ^ 2 by norm_num]
    exact Real.sqrt_sq (by norm_num)
  refine ⟨?_, ?_, ?_⟩ <;> simp [potentialEnergy, donutPotential, h9] <;> norm_num

/-- C2 (amended): the potential-energy function the HMC module uses for the
energy history and the energy-drift diagnostic is `U(q) = (‖q‖−5)²`, i.e.
exactly twice the donut potential `½(‖q‖−5)²` whose gradient drives the
leapfrog dynamics. -/
theorem hmc_potential_is_twice_donut (x y : ℝ) :
    potentialEnergy x y = 2 * donutPotential x y := by
  unfold potentialEnergy donutPotential
  ring

/-- C4: one `stepPhysics` call computes exactly the specification's leapfrog
step — half-step momentum with the donut gradient, full-step position,
half-step momentum at the new position — and appends the new position to
the trajectory path. -/
theorem stepPhysics_leapfrog (prev : Particle) (dt : ℝ)
    (hist : List EnergyTriple) :
    (stepPhysics prev dt hist).1.q = (leapfrogSpec prev.q prev.p dt mass).1 ∧
    (stepPhysics prev dt hist).1.p = (leapfrogSpec prev.q prev.p dt mass).2 ∧
    (stepPhysics prev dt hist).1.path =
      prev.path ++ [(leapfrogSpec prev.q prev.p dt mass).1] := by
  simp [stepPhysics, leapfrogSpec, donutGradient_spec]

/-- C9: the Normal-Normal updater returns posterior precision
`prior precision + n/25` and posterior mean
`posterior variance × (prior precision · prior mean + data precision · data
mean)`; with no observations the posterior equals the prior; and for prior
`N(20, 5²)` with the single observation `30`, the posterior mean is `25`
and the posterior standard deviation is `√12.5`. -/
theorem normalNormal_posterior_correct :
    (∀ pm ps : ℝ, ∀ d : List ℝ, 0 < ps → d ≠ [] →
      1 / (normalNormalPosterior pm ps d).2 ^ 2 =
        1 / ps ^ 2 + (d.length : ℝ) / 25 ∧
      (normalNormalPosterior pm ps d).1 =
        (1 / (1 / ps ^ 2 + (d.length : ℝ) / 25)) *
          ((1 / ps ^ 2) * pm +
            ((d.length : ℝ) / 25) * (d.sum / (d.length : ℝ)))) ∧
    (∀ pm ps : ℝ, normalNormalPosterior pm ps [] = (pm, ps)) ∧
    normalNormalPosterior 20 5 [30] = (25, Real.sqrt 12.5) := by
  refine ⟨?_, ?_, ?_⟩
  · intro pm ps d hps hd
    have hn : 0 < d.length := List.length_pos.mpr hd
    have h25 : ((5 : ℝ) ^ 2) = 25 := by norm_num
    have hps2 : (0 : ℝ) < 1 / ps ^ 2 := by positivity
    have hpp : (0 : ℝ) < 1 / ps ^ 2 + (d.length : ℝ) / 25 := by positivity
    unfold normalNormalPosterior
    rw [if_pos hn]
    dsimp only
    constructor
    · rw [Real.sq_sqrt (by positivity)]
      rw [h25, one_div_one_div]
    · rw [h25]
  · intro pm ps
    unfold normalNormalPosterior
    simp
  · unfold normalNormalPosterior
    norm_num [Prod.ext_iff]

theorem normalNormal_posterior_correct_witness :
    1 / (normalNormalPosterior 20 5 [30]).2 ^ 2 =
      1 / (5 : ℝ) ^ 2 + (([30] : List ℝ).length : ℝ) / 25 :=
  (normalNormal_posterior_correct.1 20 5 [30] (by norm_num) (by simp)).1

/-- C1: replacing the target density `π` by `c·π` for any constant `c > 0`
leaves the auto-run step and the manual decide unchanged for the same
uniform draws: identical accept/reject decision, new position and history. -/
theorem mh_unnormalized_invariance (f : ℝ → ℝ → ℝ) (c : ℝ) (hc : 0 < c)
    (s : Metropolis.MHState) (sigma r1 r2 u : ℝ) (proposal : Point)
    (roll : ℝ) :
    Metropolis.step (fun a b => c * f a b) s sigma r1 r2 u =
      Metropolis.step f s sigma r1 r2 u ∧
    Metropolis.handleManualDecide (fun a b => c * f a b) s proposal roll =
      Metropolis.handleManualDecide f s proposal roll := by
  constructor
  · unfold Metropolis.step
    dsimp only
    rw [mul_div_mul_left _ _ hc.ne']
  · unfold Metropolis.handleManualDecide
    dsimp only
    rw [mul_div_mul_left _ _ hc.ne']

theorem mh_unnormalized_invariance_witness :
    Metropolis.step (fun a b => 2 * targetMapPdf a b) ⟨⟨5, 5⟩, [], 0, 0⟩
        0.8 0.5 0.5 0.5 =
      Metropolis.step targetMapPdf ⟨⟨5, 5⟩, [], 0, 0⟩ 0.8 0.5 0.5 0.5 :=
  (mh_unnormalized_invariance targetMapPdf 2 (by norm_num) ⟨⟨5, 5⟩, [], 0, 0⟩
    0.8 0.5 0.5 0.5 ⟨6, 6⟩ 0.5).1

/-- C10: the manual decide applies the acceptance rule to whatever proposal
it is given: from the in-bounds position `(0.5, 5)`, the manual propose
draws `(0.05, 0.5)` with `σ = 1` produce the out-of-bounds proposal
`(−0.4, 5)`, and the manual decide with roll `0` accepts it, moving the
chain outside the `[0,10]×[0,10]` domain. -/
theorem mh_manual_ignores_bounds :
    Metropolis.handleManualPropose ⟨0.5, 5⟩ 1 0.05 0.5 = ⟨-0.4, 5⟩ ∧
    (0 ≤ (0.5 : ℝ) ∧ (0.5 : ℝ) ≤ 10 ∧ 0 ≤ (5 : ℝ) ∧ (5 : ℝ) ≤ 10) ∧
    ((-0.4 : ℝ) < 0) ∧
    (Metropolis.handleManualDecide targetMapPdf ⟨⟨0.5, 5⟩, [], 0, 0⟩ ⟨-0.4, 5⟩
        0).2.accepted = true ∧
    (Metropolis.handleManualDecide targetMapPdf ⟨⟨0.5, 5⟩, [], 0, 0⟩ ⟨-0.4, 5⟩
        0).1.position = ⟨-0.4, 5⟩ := by
  have hacc : (0 : ℝ) < min 1 (targetMapPdf (-0.4) 5 / targetMapPdf 0.5 5) :=
    lt_min one_pos (div_pos (targetMapPdf_pos _ _) (targetMapPdf_pos _ _))
  refine ⟨?_, by norm_num, by norm_num, ?_, ?_⟩
  · unfold Metropolis.handleManualPropose
    dsimp only
    congr 1 <;> norm_num
  · simp [Metropolis.handleManualDecide, hacc]
  · simp [Metropolis.handleManualDecide, hacc]

end

end BayesEvolve
